import Mathlib

/-!
Verification of the EduPath client (`src/frontend/src/App.js`) against its
natural-language specification.

The file shallowly embeds the stateful parts of the client:

* `normalize` — the comma-split / trim / drop-empty normalization applied to
  the free-text recommendation form fields (App.js lines 443-447);
* `FormData`, `applyFormEvent`, `buildRequest` — the recommendation form state,
  the rendered `onChange` handlers, and the request construction
  (App.js lines 429-448);
* `RecState`, `recSubmitAttempt`, `recSubmitResolve` — the recommendation
  workflow state machine (`loading` busy flag, result list replacement,
  silent `catch`) (App.js lines 425-457 and the submit button at 525-531);
* `fetchDashboardData` — the `Promise.all` dashboard loader
  (App.js lines 587-605);
* `AppState`, `step`, `Reachable` — the top-level session lifecycle: startup
  token verification, auth success/failure, logout, language selection
  (App.js lines 905-945);
* `loginErrors`, `registerErrors`, `submitLogin`, `submitRegister` — the zod
  schema validation run by the form resolver before any network call
  (App.js lines 151-163 and 260-263).

Machine-level conventions: JavaScript strings are `String`, absent JSON
fields are `Option`, the `localStorage` token and the axios Authorization
default are `Option String` fields, and each synchronous event-handler
segment (between `await` suspension points) is one atomic transition.
-/

namespace EduPath

/-- JavaScript `String.prototype.split(',')`: cut the string at every comma;
`n` commas yield `n + 1` segments, so `''.split(',')` is `['']` and a
trailing comma yields a trailing `''`. -/
def splitCommaAux : List Char → List Char → List String
  | [], acc => [String.mk acc.reverse]
  | c :: cs, acc =>
    if c = ',' then String.mk acc.reverse :: splitCommaAux cs []
    else splitCommaAux cs (c :: acc)

def splitComma (s : String) : List String := splitCommaAux s.data []

/-- JavaScript `String.prototype.trim()`: strip whitespace from both ends. -/
def trimStr (s : String) : String :=
  String.mk (((s.data.dropWhile Char.isWhitespace).reverse.dropWhile
    Char.isWhitespace).reverse)

/-- The normalization applied to each comma-separated text field before the
recommendation request is sent: `split(',')`, `map(s => s.trim())`,
`filter(s => s)` (App.js lines 443-447). JavaScript `filter(s => s)` keeps
exactly the nonempty strings. -/
def normalize (s : String) : List String :=
  ((splitComma s).map trimStr).filter (fun t => !t.isEmpty)

/-- The recommendation form state initialised at App.js lines 429-435. -/
structure FormData where
  interests : String
  academic_level : String
  subjects : String
  strengths : String
  career_goals : String
deriving Repr, DecidableEq

/-- `useState` initial value of the form (App.js lines 429-435). -/
def initFormData : FormData :=
  { interests := ""
    academic_level := "12th"
    subjects := ""
    strengths := ""
    career_goals := "" }

/-- The `onChange` handlers actually rendered in the recommendation form
(App.js lines 476, 488, 505, 518). There is no handler for `career_goals`:
no rendered input updates that field. -/
inductive FormEvent where
  | setInterests (v : String)
  | setAcademicLevel (v : String)
  | setSubjects (v : String)
  | setStrengths (v : String)
deriving Repr, DecidableEq

def applyFormEvent (f : FormData) : FormEvent → FormData
  | .setInterests v => { f with interests := v }
  | .setAcademicLevel v => { f with academic_level := v }
  | .setSubjects v => { f with subjects := v }
  | .setStrengths v => { f with strengths := v }

def applyFormEvents (evs : List FormEvent) (f : FormData) : FormData :=
  evs.foldl applyFormEvent f

/-- The structured body posted to `/career/recommendations`
(App.js lines 442-448). -/
structure RecommendationRequest where
  interests : List String
  academic_level : String
  subjects : List String
  strengths : List String
  career_goals : List String
deriving Repr, DecidableEq

/-- `requestData` as built in `handleSubmit` (App.js lines 442-448). -/
def buildRequest (f : FormData) : RecommendationRequest :=
  { interests := normalize f.interests
    academic_level := f.academic_level
    subjects := normalize f.subjects
    strengths := normalize f.strengths
    career_goals := normalize f.career_goals }

/-- One recommendation result as rendered (App.js lines 538-572). -/
structure Rec where
  career_title : String
  match_percentage : Nat
  description : String
  education_path : String
  local_opportunities : String
  skills_needed : List String
  salary_range : String
  growth_prospects : String
deriving Repr, DecidableEq

/-- The `useState` hooks of the `CareerRecommendations` component
(App.js lines 427-435): a busy flag, the result list, and the form fields.
The component has no error-message state. -/
structure RecState where
  loading : Bool
  recommendations : List Rec
  formData : FormData
deriving Repr, DecidableEq

/-- A submit attempt at the form's submit button (App.js lines 525-531):
the button is `disabled={loading}`, so while `loading` is set the attempt
does nothing and no request is issued; otherwise `handleSubmit` runs its
synchronous prefix (App.js lines 437-450): set `loading`, build the request,
and issue the network call. The second component is the request issued,
`none` when no call goes out. -/
def recSubmitAttempt (s : RecState) : RecState × Option RecommendationRequest :=
  if s.loading then (s, none)
  else ({ s with loading := true }, some (buildRequest s.formData))

/-- The continuation of `handleSubmit` after the awaited call resolves
(App.js lines 450-456): on success the response's list replaces
`recommendations`; on failure the `catch` only logs to the console; either
way `finally` clears `loading`. -/
def recSubmitResolve (s : RecState) (outcome : Option (List Rec)) : RecState :=
  match outcome with
  | some recs => { s with recommendations := recs, loading := false }
  | none => { s with loading := false }

/-- The dashboard view's independently loaded collections (App.js
lines 583-585): `stats` starts as `{}`, the two lists start empty. The
payload types are opaque server data, hence type parameters. -/
structure DashState (σ τ υ : Type) where
  stats : σ
  scholarships : List τ
  opportunities : List υ
deriving Repr, DecidableEq

/-- `fetchDashboardData` (App.js lines 588-602): the three requests are
issued through `Promise.all` with a single `try`/`catch`. `Promise.all`
resolves only when all three resolve, and then the three setters run;
if any request rejects, the `catch` only logs and no setter runs.
Each argument is the outcome of one request, `none` for failure. -/
def fetchDashboardData {σ τ υ : Type} (d : DashState σ τ υ)
    (rs : Option σ) (rsch : Option (List τ)) (ropp : Option (List υ)) :
    DashState σ τ υ :=
  match rs, rsch, ropp with
  | some a, some b, some c => { stats := a, scholarships := b, opportunities := c }
  | _, _, _ => d

/-- The authenticated user object returned by the remote service and held in
the `user` state (App.js line 906); `preferred_language` may be absent in the
JSON, hence `Option`. -/
structure UserIdentity where
  id : String
  full_name : String
  email : String
  role : String
  preferred_language : Option String
deriving Repr, DecidableEq

/-- JavaScript `pl || 'en'` as used at App.js lines 922 and 936: an absent
(`undefined`) or empty (falsy) `preferred_language` falls back to `"en"`. -/
def langOr (pl : Option String) : String :=
  match pl with
  | some l => if l.isEmpty then "en" else l
  | none => "en"

/-- The top-level `App` state (App.js lines 905-909) together with the two
pieces of process-wide credential state it manipulates: the `localStorage`
token (`storedToken`) and the axios Authorization default (`authHeader`).
`verifyPending` records that the startup `GET /auth/me` is awaiting its
response; `started` records that the mount effect (App.js lines 913-932) has
run. -/
structure AppState where
  storedToken : Option String
  authHeader : Option String
  user : Option UserIdentity
  currentLanguage : String
  loading : Bool
  authMode : Option Bool
  verifyPending : Bool
  started : Bool
deriving Repr, DecidableEq

/-- Process start (first render): `user = null`, `loading = true`,
`authMode = null`, `currentLanguage = 'en'`, axios has no Authorization
default; `localStorage` may already hold a token from a previous session
(the `stored` parameter). -/
def initState (stored : Option String) : AppState :=
  { storedToken := stored
    authHeader := none
    user := none
    currentLanguage := "en"
    loading := true
    authMode := none
    verifyPending := false
    started := false }

/-- The synchronous event-handler segments of `App`. `verifySuccess` and
`verifyFailure` carry the remote's answer to the startup `GET /auth/me`;
`authSuccess`/`authFailure` are the resolution of an `AuthForm` submission
(App.js lines 269-281) followed by `handleAuthSuccess` (lines 934-938);
`logout` is `handleLogout` (lines 940-945); `setLanguage` is the language
selector (lines 178-186). -/
inductive Ev where
  | startup
  | verifySuccess (u : UserIdentity)
  | verifyFailure
  | setAuthMode (m : Option Bool)
  | authSuccess (tok : String) (u : UserIdentity)
  | authFailure (msg : String)
  | logout
  | setLanguage (l : String)
deriving Repr, DecidableEq

/-- One atomic transition of the top-level state. `none` means the event
cannot fire in this state (its UI trigger is not rendered, or no matching
request is in flight): while `loading` only the spinner is rendered
(App.js lines 947-953); the auth form exists only when `user` is absent and
`authMode` is set (lines 968-1003); the logout button only when `user` is
present (lines 208-221); the language selector offers exactly `en`, `hi`,
`ks` (lines 48-52, 183-185). -/
def step (s : AppState) : Ev → Option AppState
  | .startup =>
    if s.started then none
    else
      match s.storedToken with
      | some t =>
        some { s with authHeader := some t, verifyPending := true, started := true }
      | none => some { s with loading := false, started := true }
  | .verifySuccess u =>
    if s.verifyPending then
      some { s with user := some u
                    currentLanguage := langOr u.preferred_language
                    loading := false
                    verifyPending := false }
    else none
  | .verifyFailure =>
    if s.verifyPending then
      some { s with storedToken := none
                    authHeader := none
                    loading := false
                    verifyPending := false }
    else none
  | .setAuthMode m =>
    if !s.loading && s.user.isNone then some { s with authMode := m } else none
  | .authSuccess tok u =>
    if !s.loading && s.user.isNone && s.authMode.isSome then
      some { s with storedToken := some tok
                    authHeader := some tok
                    user := some u
                    currentLanguage := langOr u.preferred_language
                    authMode := none }
    else none
  | .authFailure _ =>
    if !s.loading && s.user.isNone && s.authMode.isSome then some s else none
  | .logout =>
    if !s.loading && s.user.isSome then
      some { s with storedToken := none
                    authHeader := none
                    user := none
                    authMode := none }
    else none
  | .setLanguage l =>
    if !s.loading && ["en", "hi", "ks"].contains l then
      some { s with currentLanguage := l }
    else none

/-- The states the client can actually be in: the initial render (with any
previously stored token) and everything reachable from it by transitions. -/
inductive Reachable : AppState → Prop where
  | init (stored : Option String) : Reachable (initState stored)
  | next {s s' : AppState} (e : Ev) :
      Reachable s → step s e = some s' → Reachable s'

/-- The zod `loginSchema` / `registerSchema` field checks and messages
(App.js lines 151-163). -/
def roleValues : List String := ["student", "parent", "counselor", "admin"]

def languageValues : List String := ["en", "hi", "ks"]

/-- Field-level errors produced by `loginSchema` (App.js lines 151-154).
The zod email format test lives inside the zod library, not in this
repository, so it is abstracted as the predicate `emailOk`. -/
def loginErrors (emailOk : String → Bool) (email password : String) :
    List (String × String) :=
  (if emailOk email then [] else [("email", "Invalid email address")]) ++
  (if 6 ≤ password.length then []
   else [("password", "Password must be at least 6 characters")])

/-- The registration payload (App.js lines 156-163). -/
structure RegisterInput where
  email : String
  password : String
  full_name : String
  role : String
  phone : Option String
  preferred_language : Option String
deriving Repr, DecidableEq

/-- Field-level errors produced by `registerSchema` (App.js lines 156-163):
email format, password length at least 6, full name length at least 2, role
among the four enumerated values, and, when present, preferred language
among the three enumerated values. The enum checks use zod's stock message. -/
def registerErrors (emailOk : String → Bool) (i : RegisterInput) :
    List (String × String) :=
  (if emailOk i.email then [] else [("email", "Invalid email address")]) ++
  (if 6 ≤ i.password.length then []
   else [("password", "Password must be at least 6 characters")]) ++
  (if 2 ≤ i.full_name.length then []
   else [("full_name", "Full name must be at least 2 characters")]) ++
  (if roleValues.contains i.role then [] else [("role", "Invalid enum value")]) ++
  (match i.preferred_language with
   | some l =>
     if languageValues.contains l then []
     else [("preferred_language", "Invalid enum value")]
   | none => [])

/-- What an auth form submission does before/at the network boundary:
either the zod resolver reports field errors and `onSubmit` never runs
(no network call), or the resolver passes and `onSubmit` posts to the
endpoint (App.js lines 260-271). -/
inductive AuthSubmitResult where
  | networkCall (endpoint : String)
  | validationError (errors : List (String × String))
deriving Repr, DecidableEq

/-- Login form submission through `handleSubmit(onSubmit)` with the
`zodResolver(loginSchema)` (App.js lines 260-271). -/
def submitLogin (emailOk : String → Bool) (email password : String) :
    AuthSubmitResult :=
  if loginErrors emailOk email password = [] then .networkCall "/auth/login"
  else .validationError (loginErrors emailOk email password)

/-- Registration form submission through `handleSubmit(onSubmit)` with the
`zodResolver(registerSchema)` (App.js lines 260-271). -/
def submitRegister (emailOk : String → Bool) (i : RegisterInput) :
    AuthSubmitResult :=
  if registerErrors emailOk i = [] then .networkCall "/auth/register"
  else .validationError (registerErrors emailOk i)

/-- The inductive invariant of the session lifecycle: once the mount effect
has run, the persisted token and the axios Authorization default agree;
while the startup verification is in flight a credential is attached, no
user is set, and the spinner is shown; once startup is done and no
verification is in flight, a user is present exactly when a credential is
attached; before the mount effect only the spinner is shown. -/
def Inv (s : AppState) : Prop :=
  (s.started = true → s.storedToken = s.authHeader) ∧
  (s.verifyPending = true →
     s.authHeader.isSome = true ∧ s.user = none ∧ s.loading = true ∧
     s.started = true) ∧
  (s.started = true → s.verifyPending = false →
     s.user.isSome = s.authHeader.isSome) ∧
  (s.started = false →
     s.authHeader = none ∧ s.user = none ∧ s.verifyPending = false ∧
     s.loading = true)

/-- A sample rendered recommendation result. -/
def sampleRec (title : String) (pct : Nat) : Rec :=
  { career_title := title
    match_percentage := pct
    description := "d"
    education_path := "e"
    local_opportunities := "l"
    skills_needed := ["s"]
    salary_range := "r"
    growth_prospects := "g" }

def threeRecs : List Rec :=
  [sampleRec "Engineer" 90, sampleRec "Doctor" 80, sampleRec "Teacher" 70]

/-- A recommendation form instance with a submission in flight and three
results already displayed. -/
def busyRecState : RecState :=
  { loading := true, recommendations := threeRecs, formData := initFormData }

/-- A quiescent recommendation form instance displaying three results. -/
def idleRecState : RecState :=
  { loading := false, recommendations := threeRecs, formData := initFormData }

def userHi : UserIdentity :=
  { id := "u1", full_name := "Asha Koul", email := "asha@example.com",
    role := "student", preferred_language := some "hi" }

/-- The state right after the mount effect finds a stored token: the header
is attached and `GET /auth/me` is awaiting its response. -/
def pendingState : AppState :=
  { storedToken := some "tok0", authHeader := some "tok0", user := none,
    currentLanguage := "en", loading := true, authMode := none,
    verifyPending := true, started := true }

/-- The state after the mount effect when no token was stored. -/
def startedNoTokenState : AppState :=
  { storedToken := none, authHeader := none, user := none,
    currentLanguage := "en", loading := false, authMode := none,
    verifyPending := false, started := true }

/-- An authenticated state with language `hi` selected. -/
def authedState : AppState :=
  { storedToken := some "tok1", authHeader := some "tok1", user := some userHi,
    currentLanguage := "hi", loading := false, authMode := none,
    verifyPending := false, started := true }

def loggedOutState : AppState :=
  { authedState with storedToken := none, authHeader := none, user := none }

def clearedState : AppState :=
  { pendingState with
    storedToken := none
    authHeader := none
    loading := false
    verifyPending := false }

/-- The unauthenticated state with the login form open. -/
def authFormState : AppState :=
  { startedNoTokenState with authMode := some true }

def authDoneState : AppState :=
  { authFormState with
    storedToken := some "tok1"
    authHeader := some "tok1"
    user := some userHi
    currentLanguage := "hi"
    authMode := none }

/-- An email-format predicate that accepts everything, for concrete
instantiations where the email check is not under test. -/
def emailOkAll : String → Bool := fun _ => true

def shortPwdInput : RegisterInput :=
  { email := "a@b.com", password := "abc", full_name := "Jo",
    role := "student", phone := none, preferred_language := none }

theorem inv_init (stored : Option String) : Inv (initState stored) := by
  simp [Inv, initState]

theorem inv_step {s s' : AppState} (e : Ev) (hInv : Inv s)
    (h : step s e = some s') : Inv s' := by
  obtain ⟨h1, h2, h3, h4⟩ := hInv
  cases e with
  | startup =>
    simp only [step] at h
    by_cases hst : s.started = true
    · rw [if_pos hst] at h; cases h
    · rw [if_neg hst] at h
      have hb : s.started = false := by
        cases hb2 : s.started
        · rfl
        · exact absurd hb2 hst
      obtain ⟨ha, hu, hv, hl⟩ := h4 hb
      cases htk : s.storedToken with
      | some t =>
        rw [htk] at h
        injection h with h
        subst h
        refine ⟨?_, ?_, ?_, ?_⟩ <;> simp [htk, hu, hl]
      | none =>
        rw [htk] at h
        injection h with h
        subst h
        refine ⟨?_, ?_, ?_, ?_⟩ <;> simp [htk, ha, hu, hv]
  | verifySuccess u =>
    simp only [step] at h
    by_cases hv : s.verifyPending = true
    · rw [if_pos hv] at h
      injection h with h
      subst h
      obtain ⟨hh, hu, hl, hst⟩ := h2 hv
      refine ⟨?_, ?_, ?_, ?_⟩ <;> simp [hst, hh, h1 hst]
    · rw [if_neg hv] at h; cases h
  | verifyFailure =>
    simp only [step] at h
    by_cases hv : s.verifyPending = true
    · rw [if_pos hv] at h
      injection h with h
      subst h
      obtain ⟨hh, hu, hl, hst⟩ := h2 hv
      refine ⟨?_, ?_, ?_, ?_⟩ <;> simp [hst, hu]
    · rw [if_neg hv] at h; cases h
  | setAuthMode m =>
    simp only [step] at h
    by_cases hg : (!s.loading && s.user.isNone) = true
    · rw [if_pos hg] at h
      injection h with h
      subst h
      exact ⟨h1, h2, h3, h4⟩
    · rw [if_neg hg] at h; cases h
  | authSuccess tok u =>
    simp only [step] at h
    by_cases hg : (!s.loading && s.user.isNone && s.authMode.isSome) = true
    · rw [if_pos hg] at h
      injection h with h
      subst h
      simp only [Bool.and_eq_true, Bool.not_eq_true'] at hg
      have hvp : s.verifyPending = false := by
        cases hv2 : s.verifyPending
        · rfl
        · exact absurd ((h2 hv2).2.2.1) (by simp [hg.1.1])
      have hst : s.started = true := by
        cases hst2 : s.started
        · exact absurd ((h4 hst2).2.2.2) (by simp [hg.1.1])
        · rfl
      refine ⟨?_, ?_, ?_, ?_⟩ <;> simp [hst, hvp]
    · rw [if_neg hg] at h; cases h
  | authFailure msg =>
    simp only [step] at h
    by_cases hg : (!s.loading && s.user.isNone && s.authMode.isSome) = true
    · rw [if_pos hg] at h
      injection h with h
      subst h
      exact ⟨h1, h2, h3, h4⟩
    · rw [if_neg hg] at h; cases h
  | logout =>
    simp only [step] at h
    by_cases hg : (!s.loading && s.user.isSome) = true
    · rw [if_pos hg] at h
      injection h with h
      subst h
      simp only [Bool.and_eq_true, Bool.not_eq_true'] at hg
      have hvp : s.verifyPending = false := by
        cases hv2 : s.verifyPending
        · rfl
        · exact absurd ((h2 hv2).2.2.1) (by simp [hg.1])
      have hst : s.started = true := by
        cases hst2 : s.started
        · exact absurd ((h4 hst2).2.2.2) (by simp [hg.1])
        · rfl
      refine ⟨?_, ?_, ?_, ?_⟩ <;> simp [hst, hvp]
    · rw [if_neg hg] at h; cases h
  | setLanguage l =>
    simp only [step] at h
    by_cases hg : (!s.loading && ["en", "hi", "ks"].contains l) = true
    · rw [if_pos hg] at h
      injection h with h
      subst h
      exact ⟨h1, h2, h3, h4⟩
    · rw [if_neg hg] at h; cases h

theorem reachable_inv {s : AppState} (h : Reachable s) : Inv s := by
  induction h with
  | init stored => exact inv_init stored
  | next e _ hstep ih => exact inv_step e ih hstep

theorem applyFormEvent_career_goals (f : FormData) (e : FormEvent) :
    (applyFormEvent f e).career_goals = f.career_goals := by
  cases e <;> rfl

theorem applyFormEvents_career_goals (evs : List FormEvent) (f : FormData) :
    (applyFormEvents evs f).career_goals = f.career_goals := by
  induction evs generalizing f with
  | nil => rfl
  | cons e evs ih =>
    show (applyFormEvents evs (applyFormEvent f e)).career_goals = f.career_goals
    rw [ih, applyFormEvent_career_goals]

theorem cond_list_nil {c : Prop} [Decidable c] {x : String × String}
    (h : (if c then ([] : List (String × String)) else [x]) = []) : c := by
  by_cases hc : c
  · exact hc
  · rw [if_neg hc] at h
    exact absurd h (by simp)

theorem mem_cond_list {c : Prop} [Decidable c] {x : String × String}
    (h : ¬ c) : x ∈ (if c then ([] : List (String × String)) else [x]) := by
  rw [if_neg h]
  exact List.mem_singleton_self x

/-- C1 (counterexample): with the dashboard still holding its initial values,
if the stats and opportunities fetches succeed (payloads `7` and `[3]`) and
the scholarships fetch fails, `fetchDashboardData` leaves the view at its
initial values: the two successful payloads are not applied, contradicting
the claim that a single failure never blocks the other two. -/
theorem dashboard_partial_failure_drops_successes :
    fetchDashboardData ({ stats := 0, scholarships := [], opportunities := [] } :
        DashState Nat Nat Nat) (some 7) none (some [3]) =
      { stats := 0, scholarships := [], opportunities := [] } ∧
    (fetchDashboardData ({ stats := 0, scholarships := [], opportunities := [] } :
        DashState Nat Nat Nat) (some 7) none (some [3])).stats ≠ 7 ∧
    (fetchDashboardData ({ stats := 0, scholarships := [], opportunities := [] } :
        DashState Nat Nat Nat) (some 7) none (some [3])).opportunities ≠ [3] := by
  decide

/-- C1 (amended): the `Promise.all` loader is all-or-nothing: when all three
fetches succeed every result is applied, and when any one of them fails no
result is applied at all — the previously held values stay as they were
(they are not cleared, but the successful siblings' data is dropped). -/
theorem dashboard_all_or_nothing :
    (∀ (σ τ υ : Type) (d : DashState σ τ υ) (a : σ) (b : List τ) (c : List υ),
       fetchDashboardData d (some a) (some b) (some c) =
         { stats := a, scholarships := b, opportunities := c }) ∧
    (∀ (σ τ υ : Type) (d : DashState σ τ υ) (rs : Option σ)
       (rsch : Option (List τ)) (ropp : Option (List υ)),
       rs = none ∨ rsch = none ∨ ropp = none →
       fetchDashboardData d rs rsch ropp = d) := by
  constructor
  · intro σ τ υ d a b c
    rfl
  · intro σ τ υ d rs rsch ropp h
    rcases h with h | h | h <;> subst h
    · cases rsch <;> cases ropp <;> rfl
    · cases rs <;> cases ropp <;> rfl
    · cases rs <;> cases rsch <;> rfl

theorem dashboard_all_or_nothing_witness :
    ((none : Option Nat) = none ∨ (some [3] : Option (List Nat)) = none ∨
      (some [5] : Option (List Nat)) = none) ∧
    fetchDashboardData ({ stats := 0, scholarships := [], opportunities := [] } :
        DashState Nat Nat Nat) none (some [3]) (some [5]) =
      { stats := 0, scholarships := [], opportunities := [] } :=
  ⟨Or.inl rfl,
    dashboard_all_or_nothing.2 Nat Nat Nat _ _ _ _ (Or.inl rfl)⟩

/-- C2 (counterexample): from a quiescent form instance displaying three
results, a submit whose remote call fails does issue the network call, but
afterwards the component state is exactly the state before the submission —
the three results are preserved, yet nothing visible changed, so no visible
error is added (the component has no error state; the failure is only
logged to the console). -/
theorem failed_submit_leaves_state_identical :
    (recSubmitAttempt idleRecState).2 = some (buildRequest initFormData) ∧
    recSubmitResolve (recSubmitAttempt idleRecState).1 none = idleRecState := by
  decide

/-- C2 (amended): for every quiescent form state, a submission whose remote
call fails leaves the entire component state — in particular the prior
result list — exactly as it was before the submission, with no visible
error added; a submission whose remote call succeeds replaces the prior
result list entirely with the new results. -/
theorem replace_on_success_preserve_on_failure (s : RecState) (recs : List Rec)
    (h : s.loading = false) :
    recSubmitResolve (recSubmitAttempt s).1 none = s ∧
    (recSubmitResolve (recSubmitAttempt s).1 (some recs)).recommendations =
      recs := by
  obtain ⟨l, r, f⟩ := s
  simp only at h
  subst h
  exact ⟨rfl, rfl⟩

theorem replace_preserve_witness :
    idleRecState.loading = false ∧
    recSubmitResolve (recSubmitAttempt idleRecState).1 none = idleRecState ∧
    (recSubmitResolve (recSubmitAttempt idleRecState).1
      (some threeRecs)).recommendations = threeRecs :=
  ⟨rfl, (replace_on_success_preserve_on_failure idleRecState threeRecs rfl).1,
    (replace_on_success_preserve_on_failure idleRecState threeRecs rfl).2⟩

/-- C3: in every recommendation-form state whose busy flag is set (a
submission is in flight), a further submit attempt is ignored: the state is
unchanged (nothing is queued) and no second network request is issued. -/
theorem busy_submit_ignored (s : RecState) (h : s.loading = true) :
    recSubmitAttempt s = (s, none) := by
  simp [recSubmitAttempt, h]

theorem busy_submit_ignored_witness :
    busyRecState.loading = true ∧
    recSubmitAttempt busyRecState = (busyRecState, none) :=
  ⟨rfl, busy_submit_ignored busyRecState rfl⟩

/-- C4: normalization splits on commas, trims each segment and drops empty
segments: every segment of every normalized field is nonempty (so no empty
or whitespace-only segment ever reaches the remote call, for each of the
four list fields of the outgoing request), the surviving segments keep
their order (the result is a sublist of the trimmed split), and the input
`"Math,  , Physics ,"` normalizes to `["Math", "Physics"]`. -/
theorem normalization_contract :
    (∀ s : String, ((normalize s).all fun t => !t.isEmpty) = true) ∧
    (∀ s : String, List.Sublist (normalize s) ((splitComma s).map trimStr)) ∧
    (∀ f : FormData,
      (((buildRequest f).interests ++ (buildRequest f).subjects ++
        (buildRequest f).strengths ++ (buildRequest f).career_goals).all
          fun t => !t.isEmpty) = true) ∧
    normalize "Math,  , Physics ," = ["Math", "Physics"] := by
  have hall : ∀ s : String, ((normalize s).all fun t => !t.isEmpty) = true := by
    intro s
    rw [List.all_eq_true]
    intro x hx
    simp only [normalize] at hx
    exact (List.mem_filter.mp hx).2
  refine ⟨hall, ?_, ?_, by decide⟩
  · intro s
    exact List.filter_sublist _
  · intro f
    rw [List.all_eq_true]
    intro x hx
    simp only [List.mem_append] at hx
    rcases hx with ((hx | hx) | hx) | hx
    · exact List.all_eq_true.mp (hall f.interests) x hx
    · exact List.all_eq_true.mp (hall f.subjects) x hx
    · exact List.all_eq_true.mp (hall f.strengths) x hx
    · exact List.all_eq_true.mp (hall f.career_goals) x hx

/-- C5 (counterexample): the state in which the mount effect has attached
the stored token `"tok0"` and the `GET /auth/me` verification is in flight
is reachable; in it a credential is attached to outbound requests and the
verification can succeed from it (so the credential is one the remote
accepts, i.e. valid), yet no UserIdentity is present — refuting the claim
that in every reachable state identity presence and attached-valid-credential
presence agree. -/
theorem verify_window_breaks_identity_iff :
    Reachable pendingState ∧
    pendingState.authHeader = some "tok0" ∧
    pendingState.user = none ∧
    (step pendingState (Ev.verifySuccess userHi)).isSome = true ∧
    ¬ (pendingState.user.isSome = pendingState.authHeader.isSome) := by
  refine ⟨Reachable.next Ev.startup (Reachable.init (some "tok0")) (by decide),
    rfl, rfl, by decide, by decide⟩

/-- C5 (amended): every credential mutation updates the persisted token and
the authorization default together in the same synchronous step, so in
every reachable state after the mount effect the two never disagree; and in
every reachable state after the mount effect with no verification in
flight, a UserIdentity is present exactly when a credential is attached.
(While the startup verification is in flight, a credential — possibly a
valid one — is attached although UserIdentity is still absent.) -/
theorem credential_pair_invariant (s : AppState) (h : Reachable s) :
    (s.started = true → s.storedToken = s.authHeader) ∧
    (s.started = true → s.verifyPending = false →
      s.user.isSome = s.authHeader.isSome) := by
  have hInv := reachable_inv h
  exact ⟨hInv.1, hInv.2.2.1⟩

theorem credential_pair_invariant_witness :
    Reachable startedNoTokenState ∧
    startedNoTokenState.storedToken = startedNoTokenState.authHeader ∧
    startedNoTokenState.user.isSome = startedNoTokenState.authHeader.isSome := by
  have hr : Reachable startedNoTokenState :=
    Reachable.next Ev.startup (Reachable.init none) (by decide)
  exact ⟨hr, (credential_pair_invariant _ hr).1 rfl,
    (credential_pair_invariant _ hr).2 rfl rfl⟩

/-- C6: from every state in which the logout handler can fire (an
authenticated, quiescent state), logout clears the UserIdentity, the
persisted token and the authorization default, and leaves the selected
display language exactly as it was. -/
theorem logout_clears_session_keeps_language (s s' : AppState)
    (h : step s Ev.logout = some s') :
    s'.currentLanguage = s.currentLanguage ∧ s'.user = none ∧
    s'.storedToken = none ∧ s'.authHeader = none := by
  simp only [step] at h
  by_cases hg : (!s.loading && s.user.isSome) = true
  · rw [if_pos hg] at h
    injection h with h
    subst h
    exact ⟨rfl, rfl, rfl, rfl⟩
  · rw [if_neg hg] at h; cases h

theorem logout_witness :
    authedState.user.isSome = true ∧
    step authedState Ev.logout = some loggedOutState ∧
    (loggedOutState.currentLanguage = authedState.currentLanguage ∧
     loggedOutState.user = none ∧ loggedOutState.storedToken = none ∧
     loggedOutState.authHeader = none) :=
  ⟨rfl, by decide,
    logout_clears_session_keeps_language authedState loggedOutState (by decide)⟩

/-- C7: every login or registration input violating the local zod schema —
email rejected by the format check, password shorter than 6, full name
shorter than 2 (registration), or role outside the four enumerated values
(registration) — makes the submission stop at a field-level validation
error carrying the human-readable message of each violated field, with no
network call issued. -/
theorem local_validation_blocks_network :
    (∀ (emailOk : String → Bool) (i : RegisterInput),
       (emailOk i.email = false ∨ i.password.length < 6 ∨
        i.full_name.length < 2 ∨ roleValues.contains i.role = false) →
       submitRegister emailOk i =
         .validationError (registerErrors emailOk i) ∧
       registerErrors emailOk i ≠ [] ∧
       (emailOk i.email = false →
         ("email", "Invalid email address") ∈ registerErrors emailOk i) ∧
       (i.password.length < 6 →
         ("password", "Password must be at least 6 characters") ∈
           registerErrors emailOk i) ∧
       (i.full_name.length < 2 →
         ("full_name", "Full name must be at least 2 characters") ∈
           registerErrors emailOk i) ∧
       (roleValues.contains i.role = false →
         ("role", "Invalid enum value") ∈ registerErrors emailOk i)) ∧
    (∀ (emailOk : String → Bool) (email password : String),
       (emailOk email = false ∨ password.length < 6) →
       submitLogin emailOk email password =
         .validationError (loginErrors emailOk email password) ∧
       loginErrors emailOk email password ≠ [] ∧
       (emailOk email = false →
         ("email", "Invalid email address") ∈
           loginErrors emailOk email password) ∧
       (password.length < 6 →
         ("password", "Password must be at least 6 characters") ∈
           loginErrors emailOk email password)) := by
  constructor
  · intro emailOk i hviol
    have hne : registerErrors emailOk i ≠ [] := by
      intro hnil
      simp only [registerErrors, List.append_eq_nil] at hnil
      obtain ⟨⟨⟨⟨he, hp⟩, hf⟩, hr⟩, -⟩ := hnil
      rcases hviol with hv | hv | hv | hv
      · exact absurd (cond_list_nil he) (by simp [hv])
      · exact absurd (cond_list_nil hp) (by omega)
      · exact absurd (cond_list_nil hf) (by omega)
      · exact absurd (cond_list_nil hr) (by rw [hv]; simp)
    refine ⟨?_, hne, ?_, ?_, ?_, ?_⟩
    · simp only [submitRegister, if_neg hne]
    · intro he
      simp only [registerErrors, List.mem_append]
      exact Or.inl (Or.inl (Or.inl (Or.inl (mem_cond_list (by simp [he])))))
    · intro hp
      simp only [registerErrors, List.mem_append]
      exact Or.inl (Or.inl (Or.inl (Or.inr (mem_cond_list (by omega)))))
    · intro hf
      simp only [registerErrors, List.mem_append]
      exact Or.inl (Or.inl (Or.inr (mem_cond_list (by omega))))
    · intro hr
      simp only [registerErrors, List.mem_append]
      exact Or.inl (Or.inr (mem_cond_list (by rw [hr]; simp)))
  · intro emailOk email password hviol
    have hne : loginErrors emailOk email password ≠ [] := by
      intro hnil
      simp only [loginErrors, List.append_eq_nil] at hnil
      obtain ⟨he, hp⟩ := hnil
      rcases hviol with hv | hv
      · exact absurd (cond_list_nil he) (by simp [hv])
      · exact absurd (cond_list_nil hp) (by omega)
    refine ⟨?_, hne, ?_, ?_⟩
    · simp only [submitLogin, if_neg hne]
    · intro he
      simp only [loginErrors, List.mem_append]
      exact Or.inl (mem_cond_list (by simp [he]))
    · intro hp
      simp only [loginErrors, List.mem_append]
      exact Or.inr (mem_cond_list (by omega))

theorem local_validation_witness :
    shortPwdInput.password.length < 6 ∧
    submitRegister emailOkAll shortPwdInput =
      .validationError (registerErrors emailOkAll shortPwdInput) ∧
    ("password", "Password must be at least 6 characters") ∈
      registerErrors emailOkAll shortPwdInput :=
  ⟨by decide,
    (local_validation_blocks_network.1 emailOkAll shortPwdInput
      (Or.inr (Or.inl (by decide)))).1,
    (local_validation_blocks_network.1 emailOkAll shortPwdInput
      (Or.inr (Or.inl (by decide)))).2.2.2.1 (by decide)⟩

/-- C8: from every reachable state in which the startup verification can
fail (the `GET /auth/me` request is in flight), the failure handler removes
the persisted token, detaches the authorization default, leaves no
UserIdentity set, and ends the loading state — the system degrades to the
unauthenticated state. -/
theorem verify_failure_clears_session (s s' : AppState) (hr : Reachable s)
    (h : step s Ev.verifyFailure = some s') :
    s'.storedToken = none ∧ s'.authHeader = none ∧ s'.user = none ∧
    s'.loading = false := by
  have hInv := reachable_inv hr
  simp only [step] at h
  by_cases hv : s.verifyPending = true
  · rw [if_pos hv] at h
    injection h with h
    subst h
    exact ⟨rfl, rfl, (hInv.2.1 hv).2.1, rfl⟩
  · rw [if_neg hv] at h; cases h

theorem verify_failure_witness :
    Reachable pendingState ∧
    step pendingState Ev.verifyFailure = some clearedState ∧
    (clearedState.storedToken = none ∧ clearedState.authHeader = none ∧
     clearedState.user = none ∧ clearedState.loading = false) := by
  have hr : Reachable pendingState :=
    Reachable.next Ev.startup (Reachable.init (some "tok0")) (by decide)
  exact ⟨hr, by decide,
    verify_failure_clears_session pendingState clearedState hr (by decide)⟩

/-- C9: every successful verification and every successful login or
registration (both resolve through the same handler) sets the active
display language to the returned identity's preferred language via the
`pl || 'en'` fallback, and that fallback yields `"en"` when the identity
has no preferred language and the language itself when one is present and
nonempty. -/
theorem language_follows_identity :
    (∀ (s : AppState) (tok : String) (u : UserIdentity) (s' : AppState),
       step s (Ev.authSuccess tok u) = some s' →
       s'.currentLanguage = langOr u.preferred_language) ∧
    (∀ (s : AppState) (u : UserIdentity) (s' : AppState),
       step s (Ev.verifySuccess u) = some s' →
       s'.currentLanguage = langOr u.preferred_language) ∧
    langOr none = "en" ∧
    (∀ l : String, ¬ l = "" → langOr (some l) = l) := by
  refine ⟨?_, ?_, rfl, ?_⟩
  · intro s tok u s' h
    simp only [step] at h
    by_cases hg : (!s.loading && s.user.isNone && s.authMode.isSome) = true
    · rw [if_pos hg] at h
      injection h with h
      subst h
      rfl
    · rw [if_neg hg] at h; cases h
  · intro s u s' h
    simp only [step] at h
    by_cases hv : s.verifyPending = true
    · rw [if_pos hv] at h
      injection h with h
      subst h
      rfl
    · rw [if_neg hv] at h; cases h
  · intro l hl
    have he : l.isEmpty = false := by
      by_contra hc
      simp at hc
      exact hl ((String.isEmpty_iff l).mp hc)
    simp [langOr, he]

theorem language_follows_identity_witness :
    step authFormState (Ev.authSuccess "tok1" userHi) = some authDoneState ∧
    authDoneState.currentLanguage = langOr userHi.preferred_language :=
  ⟨by decide,
    language_follows_identity.1 authFormState "tok1" userHi authDoneState
      (by decide)⟩

/-- C10: whatever sequence of edits the rendered form inputs perform, the
`career_goals` field of the form state stays the empty string (no rendered
input updates it), and therefore the `career_goals` field of every outgoing
recommendation request is the empty list. -/
theorem career_goals_always_empty (evs : List FormEvent) :
    (applyFormEvents evs initFormData).career_goals = "" ∧
    (buildRequest (applyFormEvents evs initFormData)).career_goals = [] := by
  have h := applyFormEvents_career_goals evs initFormData
  refine ⟨h, ?_⟩
  show normalize (applyFormEvents evs initFormData).career_goals = []
  rw [h]
  decide

end EduPath
